import Mathlib

/-
Verification development for the active-volume (skull removal) engine of
src/lib/scripts/actvolume/actvol.js (class ActiveVolume).

The embedding follows the source file section by section:
  * engine control state and the step function `updateGeo` (lines 649-720),
    with the work performed by each call recorded in an explicit log;
  * `create` (lines 302-315);
  * `skullRemove` (lines 94-177) with its vertex rescale loop (124-140) and
    predicted step count (288-297);
  * `applyPartGaussSmooth` (lines 342-408) over real-valued images;
  * the histogram / boundary-band scan of `getHistogram` (lines 450-621)
    over rational-valued images, with JavaScript typed-array indexing
    semantics made explicit (a non-integer or out-of-range index is a
    silent no-op);
  * `smoothStep` (lines 412-420) with the JavaScript special values
    (NaN, ±Infinity) of the internal division modelled explicitly.
-/

/-- One unit of work performed inside a single `updateGeo` call. Each
constructor corresponds to one block of the source function: the
`NOT_STARTED` entry work, one invocation of `applyPartGaussSmooth`, one
uniformity-stage increment, the `getHistogram` classification, the
`m_verticesNew` allocation, and the three relaxation dispatches. -/
inductive WorkItem where
  | startSmooth : WorkItem
  | gaussBand (zStart zEnd : ℤ) : WorkItem
  | uniformityStep : WorkItem
  | classifyHist : WorkItem
  | allocVertices : WorkItem
  | relaxNormals : WorkItem
  | relaxNormalsUniformity : WorkItem
  | relaxFull : WorkItem
deriving DecidableEq

/-- Control state of the engine: the fields of `ActiveVolume` that drive the
state machine (`m_state`, the stage counters, the dimensions, and whether
`m_verticesNew` has been allocated). States are the source constants:
0 = NOT_STARTED, 1 = PREPARE_GAUSS, 2 = PREPARE_UNIFORMITY,
3 = UPDATE_GEO, 4 = FINISHED. -/
structure EngState where
  state : ℤ
  gaussStage : ℤ
  uniformityStage : ℤ
  geoStage : ℤ
  xDim : ℤ
  yDim : ℤ
  zDim : ℤ
  verticesNewAlloc : Bool
deriving DecidableEq

/-- Result of one `updateGeo` call: new engine state, the (possibly updated)
mesh vertex array, the returned status, and the log of work performed. -/
structure StepResult where
  eng : EngState
  geo : List ℚ
  status : ℤ
  log : List WorkItem
deriving DecidableEq

/-- `updateGeo` block for `AV_STATE_NOT_STARTED` (actvol.js 654-664):
normals are created by the geometry collaborator, smoothing scratch buffers
are set up, the gauss stage counter starts at 0 and the state advances to
`PREPARE_GAUSS`. -/
def blockStart (st : EngState) : EngState × List WorkItem :=
  if st.state = 0 then ({ st with state := 1, gaussStage := 0 }, [.startSmooth])
  else (st, [])

/-- `updateGeo` block for `AV_STATE_PREPARE_GAUSS` (actvol.js 665-677): one
band `[floor(zDim*stage/18), floor(zDim*(stage+1)/18))` is smoothed, the
counter is incremented, and at 18 bands the state advances. -/
def blockGauss (st : EngState) : EngState × List WorkItem :=
  if st.state = 1 then
    let zs := Int.fdiv (st.zDim * st.gaussStage) 18
    let ze := Int.fdiv (st.zDim * (st.gaussStage + 1)) 18
    if 18 ≤ st.gaussStage + 1 then
      ({ st with gaussStage := st.gaussStage + 1, state := 2, uniformityStage := 0 },
        [.gaussBand zs ze])
    else ({ st with gaussStage := st.gaussStage + 1 }, [.gaussBand zs ze])
  else (st, [])

/-- `updateGeo` block for `AV_STATE_PREPARE_UNIFORMITY` (actvol.js 678-691):
the uniformity work itself is commented out upstream; the counter is
incremented and on reaching 18 the histogram classification runs and the
state advances to `UPDATE_GEO`. -/
def blockUnif (st : EngState) : EngState × List WorkItem :=
  if st.state = 2 then
    if st.uniformityStage + 1 = 18 then
      ({ st with uniformityStage := st.uniformityStage + 1, geoStage := 0, state := 3 },
        [.uniformityStep, .classifyHist])
    else ({ st with uniformityStage := st.uniformityStage + 1 }, [.uniformityStep])
  else (st, [])

/-- `updateGeo` block for `AV_STATE_UPDATE_GEO` (actvol.js 693-718). The
relaxation routines `updateGeoByVertexNormals` and
`updateGeoByVertexNormalsAndUniformity` are not part of the sources and are
passed as opaque vertex transformations `relaxA`, `relaxB`;
`updateGeoNormalsUniformityColors` (lines 629-641) only logs, mutates no
vertex and returns `undefined`, i.e. a falsy completion flag, so the
full-method branch keeps the vertices and never sets `FINISHED`. -/
def relaxDispatch (relaxA relaxB : List ℚ → List ℚ) (method : ℤ) (geo : List ℚ) :
    List ℚ × List WorkItem :=
  if method.land 1 ≠ 0 ∧ method.land 2 = 0 then (relaxA geo, [.relaxNormals])
  else if method.land 1 ≠ 0 ∧ method.land 2 ≠ 0 ∧ method.land 4 = 0 then
    (relaxB geo, [.relaxNormalsUniformity])
  else if method.land 1 ≠ 0 ∧ method.land 2 ≠ 0 ∧ method.land 4 ≠ 0 then
    (geo, [.relaxFull])
  else (geo, [])

/-- The body of the `UPDATE_GEO` block: the scratch allocation on first
entry, the method dispatch and the geo-stage increment. -/
def blockGeo (relaxA relaxB : List ℚ → List ℚ) (method : ℤ) (st : EngState) (geo : List ℚ) :
    EngState × List ℚ × List WorkItem :=
  if st.state = 3 then
    let aLog : List WorkItem := if st.verticesNewAlloc then [] else [.allocVertices]
    let d := relaxDispatch relaxA relaxB method geo
    ({ st with verticesNewAlloc := true, geoStage := st.geoStage + 1 }, d.1, aLog ++ d.2)
  else (st, geo, [])

/-- Embedding of `ActiveVolume.updateGeo` (actvol.js 649-720). A `FINISHED`
engine returns 1 immediately; a failed normal creation propagates its
status; otherwise the four state blocks run in sequence, each checking the
current (possibly just updated) state — so a call that completes a stage
falls through into the next block. -/
def updateGeoM (okNormals : ℤ) (relaxA relaxB : List ℚ → List ℚ)
    (st : EngState) (geo : List ℚ) (method : ℤ) : StepResult :=
  if st.state = 4 then ⟨st, geo, 1, []⟩
  else if st.state = 0 ∧ okNormals ≠ 1 then ⟨st, geo, okNormals, []⟩
  else
    let p0 := blockStart st
    let p1 := blockGauss p0.1
    let p2 := blockUnif p1.1
    let p3 := blockGeo relaxA relaxB method p2.1 geo
    ⟨p3.1, p3.2.1, 1, p0.2 ++ p1.2 ++ p2.2 ++ p3.2.2⟩

/-- The pipeline state that owns a given unit of work. -/
def stateOfWork : WorkItem → ℤ
  | .startSmooth => 0
  | .gaussBand _ _ => 1
  | .uniformityStep => 2
  | .classifyHist => 2
  | .allocVertices => 3
  | .relaxNormals => 3
  | .relaxNormalsUniformity => 3
  | .relaxFull => 3

/-- All work items of one call belong to a single pipeline state. -/
def oneStateLog (l : List WorkItem) : Prop :=
  ∀ w ∈ l, ∀ w2 ∈ l, stateOfWork w = stateOfWork w2

instance (l : List WorkItem) : Decidable (oneStateLog l) := by
  unfold oneStateLog; infer_instance

/-- Work-item classifiers for per-kind counting. -/
def isGaussItem : WorkItem → Bool
  | .gaussBand _ _ => true
  | _ => false

def isUnifItem : WorkItem → Bool
  | .uniformityStep => true
  | _ => false

def isClassifyItem : WorkItem → Bool
  | .classifyHist => true
  | _ => false

def isRelaxItem : WorkItem → Bool
  | .relaxNormals => true
  | .relaxNormalsUniformity => true
  | .relaxFull => true
  | _ => false

/-- Engine control state right after `create`: the constructor left the
stage counters at -1, `create` set `m_state` to NOT_STARTED and recorded
the dimensions; `m_verticesNew` is null. -/
def engCreated (x y z : ℤ) : EngState :=
  ⟨0, -1, -1, -1, x, y, z, false⟩

/-- One driver step with the full method mask `AV_METHOD_ALL = 0xffff`,
successful normals and opaque identity relaxations. -/
def stepFull (s : EngState × List ℚ) : EngState × List ℚ :=
  let r := updateGeoM 1 id id s.1 s.2 65535
  (r.eng, r.geo)

/-- Engine state and mesh after `n` driver steps on a freshly created
4×4×4 engine. -/
def iterSteps : ℕ → EngState × List ℚ
  | 0 => (engCreated 4 4 4, [])
  | n + 1 => stepFull (iterSteps n)

/-- The work log of call number `n+1` of the driver loop. -/
def logAt (n : ℕ) : List WorkItem :=
  (updateGeoM 1 id id (iterSteps n).1 (iterSteps n).2 65535).log

/-- Iterate `updateGeo` `n` times from a given engine state and mesh. -/
def iterUpd (okNormals : ℤ) (relaxA relaxB : List ℚ → List ℚ) (method : ℤ) :
    ℕ → EngState × List ℚ → EngState × List ℚ
  | 0, s => s
  | n + 1, s =>
    let r := updateGeoM okNormals relaxA relaxB s.1 s.2 method
    iterUpd okNormals relaxA relaxB method n (r.eng, r.geo)

/-- The object state produced by `ActiveVolume.create` (actvol.js 302-315):
state, source pointer, dimensions, the two freshly allocated
(zero-initialized) Float32 buffers of `xDim*yDim*zDim` elements, the nulled
vertex scratch buffer, and the returned status. -/
structure AVCreateResult where
  m_state : ℤ
  m_pixelsSrc : List ℚ
  m_xDim : ℤ
  m_yDim : ℤ
  m_zDim : ℤ
  m_imageGauss : List ℚ
  m_imageUniformity : List ℚ
  m_verticesNew : Option (List ℚ)
  status : ℤ
deriving DecidableEq

/-- Embedding of `ActiveVolume.create` (actvol.js 302-315). Note that the
function performs no dimension validation of its own; it unconditionally
records the inputs, allocates and returns 1. -/
def avCreate (xDim yDim zDim : ℤ) (volTexSrc : List ℚ) : AVCreateResult :=
  { m_state := 0
    m_pixelsSrc := volTexSrc
    m_xDim := xDim
    m_yDim := yDim
    m_zDim := zDim
    m_imageGauss := List.replicate (xDim * yDim * zDim).toNat 0
    m_imageUniformity := List.replicate (xDim * yDim * zDim).toNat 0
    m_verticesNew := none
    status := 1 }

/-- Per-component vertex rescale of `skullRemove` (actvol.js 125-139):
`dim2 = (dim − 1)·0.5` and `v ↦ dim2 + dim2·v`. -/
def scaleComp (dim v : ℚ) : ℚ :=
  (dim - 1) * (1 / 2) + (dim - 1) * (1 / 2) * v

/-- The vertex rescale loop of `skullRemove` (actvol.js 136-140): vertices
are flat 4-component records, components 0..2 are scaled per axis and
component 3 is left untouched. The loop runs over `numVertices` complete
4-component groups. -/
def scaleVertices (xd yd zd : ℚ) : List ℚ → List ℚ
  | x :: y :: z :: w :: rest =>
      scaleComp xd x :: scaleComp yd y :: scaleComp zd z :: w :: scaleVertices xd yd zd rest
  | l => l

/-- `getPredictedStepsForActiveVolumeUpdate` (actvol.js 288-297):
`max(xDim/2, yDim/2, zDim/2) + 18` in floating arithmetic. -/
def getPredictedSteps (xDim yDim zDim : ℤ) : ℚ :=
  max (max ((xDim : ℚ) / 2) ((yDim : ℚ) / 2)) ((zDim : ℚ) / 2) + 18

/-- The `skullRemove` update loop (actvol.js 154-161): step until the
predicted count is exhausted or the engine reports `FINISHED`. -/
def runLoop (okNormals : ℤ) (relaxA relaxB : List ℚ → List ℚ) (method : ℤ) :
    ℕ → EngState × List ℚ → EngState × List ℚ
  | 0, s => s
  | n + 1, s =>
    if s.1.state = 4 then s
    else
      let r := updateGeoM okNormals relaxA relaxB s.1 s.2 method
      runLoop okNormals relaxA relaxB method n (r.eng, r.geo)

/-- Embedding of `ActiveVolume.skullRemove` (actvol.js 94-177). The mesh
collaborators (TetrahedronGenerator / GeoRender) are external to the
sources; their status codes and the produced vertex array are parameters.
`volTexDst` is threaded through unchanged because the source function never
writes to it on any path. -/
def skullRemove (xDim yDim zDim : ℤ) (volTexSrc volTexDst : List ℚ)
    (okCreateTetra errGeo : ℤ) (geoVerts : List ℚ)
    (okNormals : ℤ) (relaxA relaxB : List ℚ → List ℚ) : ℤ × List ℚ :=
  if 8192 ≤ xDim ∨ 8192 ≤ yDim ∨ 8192 ≤ zDim then (-1, volTexDst)
  else if xDim ≤ 1 ∨ yDim ≤ 1 ∨ zDim ≤ 1 then (-1, volTexDst)
  else
    let cr := avCreate xDim yDim zDim volTexSrc
    if cr.status ≠ 1 then (cr.status, volTexDst)
    else if okCreateTetra < 1 then (okCreateTetra, volTexDst)
    else if errGeo ≠ 1 then (-3, volTexDst)
    else
      let verts := scaleVertices (xDim : ℚ) (yDim : ℚ) (zDim : ℚ) geoVerts
      let n := Int.toNat ⌈getPredictedSteps xDim yDim zDim⌉
      let _run := runLoop okNormals relaxA relaxB 65535 n (engCreated xDim yDim zDim, verts)
      (1, volTexDst)

/-- values taken by the JavaScript loop `for (v = a; v < b; v++)`:
`a, a+1, ...` while `< b` (fractional bounds included, as in the source
where several loop bounds are non-integer floats). -/
def jsRange (a b : ℚ) : List ℚ :=
  (List.range (Int.toNat ⌈b - a⌉)).map (fun i => a + i)

/-- values taken by the JavaScript loop `for (v = a; v > b; v--)`. -/
def jsRangeDown (a b : ℚ) : List ℚ :=
  (List.range (Int.toNat ⌈a - b⌉)).map (fun i => a - i)

/-- JavaScript `m_histogram[v]++` on the 256-entry Int32Array: the increment
happens only when `v` is a canonical integer index in `[0, 256)`; any other
index (negative, ≥ 256, or non-integer) is silently ignored while leaving
the array unchanged. -/
def histIncr (h : ℕ → ℕ) (v : ℚ) : ℕ → ℕ :=
  if v.den = 1 ∧ 0 ≤ v.num ∧ v.num < 256 then
    fun j => if j = v.num.toNat then h j + 1 else h j
  else h

/-- Sum of the 256 histogram bins. -/
def sumHist (h : ℕ → ℕ) : ℕ :=
  ∑ i ∈ Finset.range 256, h i

/-- First histogram pass of `getHistogram` (actvol.js 450-461): every voxel
of the smoothed image, floored and clamped above to 255 (no clamp below). -/
def histogramFullPass (numPixels : ℕ) (img : ℕ → ℚ) : ℕ → ℕ :=
  (List.range numPixels).foldl
    (fun h i => histIncr h ((min ⌊img i⌋ 255 : ℤ) : ℚ)) (fun _ => 0)

/-- Source constant `NUM_20` (actvol.js 493). -/
def num20 : ℚ := 20

/-- Source constant `NUM_526` (actvol.js 494). Despite its name, the source
assigns it the value `20.0`. -/
def num526 : ℚ := 20

/-- Border strip width `xMin = xDim * (NUM_20 / NUM_526)` (actvol.js
495-496). With the source constants this is the whole x extent. -/
def xMinBorder (xDim : ℚ) : ℚ := xDim * (num20 / num526)

/-- The `(z, y)` pairs of the central scan window of `getHistogram`
(actvol.js 487-492): `z ∈ [zDim/2−4, zDim/2+4)`, `y ∈ [yDim/2−4, yDim/2+4)`,
z outer. -/
def scanPairs (yDim zDim : ℚ) : List (ℚ × ℚ) :=
  ((jsRange (zDim / 2 - 4) (zDim / 2 + 4)).map (fun z =>
    (jsRange (yDim / 2 - 4) (yDim / 2 + 4)).map (fun y => (z, y)))).flatten

/-- Flat voxel offset `x + y·xDim + z·xDim·yDim`. -/
def offAt (xDim yDim : ℚ) (x y z : ℚ) : ℚ :=
  x + y * xDim + z * xDim * yDim

/-- The border samples averaged for the background level (actvol.js
499-519): both x strips `[0, xMin)` and `[xMax, xDim)` for every row of the
scan window. The image is a total map on rational offsets; in every
evaluation below all accessed offsets are integral and in bounds. -/
def borderVals (xDim yDim zDim : ℚ) (img : ℚ → ℚ) : List ℚ :=
  ((scanPairs yDim zDim).map (fun zy =>
    ((jsRange 0 (xMinBorder xDim) ++ jsRange (xDim - xMinBorder xDim) xDim).map
      (fun x => img (offAt xDim yDim x zy.2 zy.1))))).flatten

/-- Background ("black") level `colBlack` (actvol.js 520): the running sum
of the border samples divided by their count. -/
def colBlackOf (xDim yDim zDim : ℚ) (img : ℚ → ℚ) : ℚ :=
  (borderVals xDim yDim zDim img).foldl (fun a b => a + b) 0 /
    ((borderVals xDim yDim zDim img).length : ℚ)

/-- Left inward scan of one row (actvol.js 533-540): the first
`x ∈ [xMin, xDim/2)` whose intensity exceeds `colBlack + 40`; the final
loop-variable value if none. -/
def rowScanL (xDim yDim : ℚ) (img : ℚ → ℚ) (cb : ℚ) (zy : ℚ × ℚ) : ℚ :=
  let l := jsRange (xMinBorder xDim) (xDim / 2)
  match l.find? (fun x => if cb + 40 < img (offAt xDim yDim x zy.2 zy.1) then true else false) with
  | some x => x
  | none => xMinBorder xDim + l.length

/-- Right inward scan of one row (actvol.js 541-548), running downward. -/
def rowScanR (xDim yDim : ℚ) (img : ℚ → ℚ) (cb : ℚ) (zy : ℚ × ℚ) : ℚ :=
  let l := jsRangeDown (xDim - xMinBorder xDim) (xDim / 2)
  match l.find? (fun x => if cb + 40 < img (offAt xDim yDim x zy.2 zy.1) then true else false) with
  | some x => x
  | none => (xDim - xMinBorder xDim) - l.length

/-- `xLeftMin` (actvol.js 525, 529-550): minimum of the left scan results
over all rows, initialized to `xDim`. -/
def xLeftMinOf (xDim yDim zDim : ℚ) (img : ℚ → ℚ) : ℚ :=
  let cb := colBlackOf xDim yDim zDim img
  (scanPairs yDim zDim).foldl (fun acc zy => min (rowScanL xDim yDim img cb zy) acc) xDim

/-- `xRightMax` (actvol.js 526, 529-550): maximum of the right scan results
over all rows, initialized to 0. -/
def xRightMaxOf (xDim yDim zDim : ℚ) (img : ℚ → ℚ) : ℚ :=
  let cb := colBlackOf xDim yDim zDim img
  (scanPairs yDim zDim).foldl (fun acc zy => max (rowScanR xDim yDim img cb zy) acc) 0

/-- `RANGE_SCAN = xDim * 40 / 512` (actvol.js 552-553). -/
def rangeScanOf (xDim : ℚ) : ℚ := xDim * 40 / 512

/-- Histogram index keys attempted by the boundary-band pass (actvol.js
559-580), one per `numPixHist` increment, in loop order: for the left band
the raw image value is used as the index (the source has no `Math.floor`
there), for the right band the floored value. -/
def hist2Keys (xDim yDim zDim : ℚ) (img : ℚ → ℚ) : List ℚ :=
  let xLmin := xLeftMinOf xDim yDim zDim img
  let xLmax := xLmin + rangeScanOf xDim
  let xRmax := xRightMaxOf xDim yDim zDim img
  let xRmin := xRmax - rangeScanOf xDim
  ((scanPairs yDim zDim).map (fun zy =>
    (jsRange xLmin xLmax).map (fun x => img (offAt xDim yDim x zy.2 zy.1)) ++
      (jsRange xRmin xRmax).map
        (fun x => ((⌊img (offAt xDim yDim x zy.2 zy.1)⌋ : ℤ) : ℚ)))).flatten

/-- The boundary-band histogram built from the attempted index keys. -/
def histFromKeys (keys : List ℚ) : ℕ → ℕ :=
  keys.foldl histIncr (fun _ => 0)

/-- The spec formula for the border strip width: the 20/526 fraction of the
x dimension. Stated from the specification text for comparison with the
source computation `xMinBorder`. -/
def xMinSpecClaim (xDim : ℚ) : ℚ := xDim * (20 / 526)

/-- Per-intensity weight (actvol.js 478-484):
`m_colorKoefs[i] = 1 − 1/(1 + |i − indexMinColor| ** 0.3)`. -/
noncomputable def colorKoef (imin i : ℕ) : ℝ :=
  1 - 1 / (1 + (((i : ℤ) - imin).natAbs : ℝ) ^ ((0.3 : ℝ)))

/-- Gaussian smoother state: the cached kernel `m_gaussMatrix` and the
smoothed image `m_imageGauss`, both as flat-index maps. -/
structure GaussSt where
  gaussMatrix : ℕ → ℝ
  imageGauss : ℕ → ℝ

/-- Unnormalized kernel weight (actvol.js 350-367); the index components
range over `[0, dia)` and stand for `offset + rad`. The weight is
`exp(−dist² / (3σ²))` over per-axis offsets normalized to `[-1, 1]`. -/
noncomputable def gaussWeight (rad : ℕ) (sigma : ℝ) (dz dy dx : ℕ) : ℝ :=
  let fz : ℝ := ((dz : ℝ) - rad) / rad
  let fy : ℝ := ((dy : ℝ) - rad) / rad
  let fx : ℝ := ((dx : ℝ) - rad) / rad
  Real.exp (-1 * (fx * fx + fy * fy + fz * fz) * (1 / (3 * sigma * sigma)))

/-- Kernel weight sum used for normalization (actvol.js 354-367). -/
noncomputable def gaussWSum (rad : ℕ) (sigma : ℝ) : ℝ :=
  ∑ dz ∈ Finset.range (1 + 2 * rad), ∑ dy ∈ Finset.range (1 + 2 * rad),
    ∑ dx ∈ Finset.range (1 + 2 * rad), gaussWeight rad sigma dz dy dx

/-- The normalized kernel as stored in `m_gaussMatrix` (actvol.js 350-373):
entry `j < dia³` holds the normalized weight in dz-major order; the rest of
the allocation stays zero. -/
noncomputable def buildKernel (rad : ℕ) (sigma : ℝ) : ℕ → ℝ :=
  fun j =>
    let dia := 1 + 2 * rad
    if j < dia * dia * dia then
      gaussWeight rad sigma (j / (dia * dia)) (j / dia % dia) (j % dia) *
        (1 / gaussWSum rad sigma)
    else 0

/-- Convolution sum at voxel `(x, y, z)` (actvol.js 388-404), reading the
raw source image under the kernel footprint. -/
noncomputable def convAt (xDim yDim rad : ℕ) (src kern : ℕ → ℝ) (x y z : ℕ) : ℝ :=
  let dia := 1 + 2 * rad
  ∑ dz ∈ Finset.range dia, ∑ dy ∈ Finset.range dia, ∑ dx ∈ Finset.range dia,
    kern (dz * dia * dia + dy * dia + dx) *
      src ((x - rad + dx) + (y - rad + dy) * xDim + (z - rad + dz) * xDim * yDim)

/-- The flat offsets rewritten by one band call (actvol.js 380-387): the
voxels with X and Y coordinates in `[rad, dim − rad)` and Z in the clamped
band `[zs, ze)`. -/
def inWriteBand (xDim yDim rad zs ze p : ℕ) : Prop :=
  rad ≤ p % xDim ∧ p % xDim < xDim - rad ∧
    rad ≤ p / xDim % yDim ∧ p / xDim % yDim < yDim - rad ∧
    zs ≤ p / (xDim * yDim) ∧ p / (xDim * yDim) < ze

instance (xDim yDim rad zs ze p : ℕ) : Decidable (inWriteBand xDim yDim rad zs ze p) := by
  unfold inWriteBand; infer_instance

/-- Embedding of `applyPartGaussSmooth` (actvol.js 342-408): when
`zStart = 0` the kernel is (re)built and the raw source is copied into
`m_imageGauss`; then every voxel of the band — Z clamped to
`[max(zStart, rad), min(zEnd, zDim − rad))`, X/Y to `[rad, dim − rad)` —
is overwritten with the kernel sum over the raw source. -/
noncomputable def applyPartGaussSmooth (xDim yDim zDim : ℕ) (src : ℕ → ℝ)
    (zStart zEnd rad : ℕ) (sigma : ℝ) (st : GaussSt) : GaussSt :=
  let st1 : GaussSt := if zStart = 0 then ⟨buildKernel rad sigma, src⟩ else st
  let zs := max zStart rad
  let ze := min zEnd (zDim - rad)
  { gaussMatrix := st1.gaussMatrix
    imageGauss := fun p =>
      if inWriteBand xDim yDim rad zs ze p then
        convAt xDim yDim rad src st1.gaussMatrix (p % xDim) (p / xDim % yDim)
          (p / (xDim * yDim))
      else st1.imageGauss p }

/-- All-zero source image for concrete instantiations. -/
noncomputable def srcZero : ℕ → ℝ := fun _ => 0

/-- Gaussian state before the first call (both buffers zeroed). -/
noncomputable def gaussInit : GaussSt :=
  ⟨fun _ => 0, fun _ => 0⟩

/-- JavaScript double values relevant to `smoothStep`: a finite value or one
of the special values produced by dividing by zero. -/
inductive JsNum where
  | fin (q : ℚ) : JsNum
  | posInf : JsNum
  | negInf : JsNum
  | nan : JsNum
deriving DecidableEq

/-- JavaScript division of finite doubles: finite unless the divisor is 0,
in which case the sign of the dividend selects ±Infinity, or NaN for 0/0. -/
def jsDivNum (a b : ℚ) : JsNum :=
  if b = 0 then (if 0 < a then .posInf else if a < 0 then .negInf else .nan)
  else .fin (a / b)

/-- JavaScript `x > c` for a possibly special `x`; NaN compares false. -/
def jsGtC (x : JsNum) (c : ℚ) : Bool :=
  match x with
  | .fin q => decide (c < q)
  | .posInf => true
  | .negInf => false
  | .nan => false

/-- JavaScript `x < c` for a possibly special `x`; NaN compares false. -/
def jsLtC (x : JsNum) (c : ℚ) : Bool :=
  match x with
  | .fin q => decide (q < c)
  | .posInf => false
  | .negInf => true
  | .nan => false

/-- The clamped parameter `t` of `smoothStep` (actvol.js 412-415):
`t = (arg − minRange)/(maxRange − minRange)` clamped by
`t = t > 0 ? t : 0` and `t = t < 1 ? t : 1`. After both clamps `t` is
always finite. -/
def smoothStepT (minRange maxRange arg : ℚ) : JsNum :=
  let t0 := jsDivNum (arg - minRange) (maxRange - minRange)
  let t1 := if jsGtC t0 0 then t0 else .fin 0
  if jsLtC t1 1 then t1 else .fin 1

/-- The `smoothStep` result `t·t·(3 − 2·t)` (actvol.js 416-419); the
non-finite fallback 0 is never taken (`smoothStepT` always yields a finite
value). -/
def smoothStepVal (minRange maxRange arg : ℚ) : ℚ :=
  match smoothStepT minRange maxRange arg with
  | .fin t => t * t * (3 - 2 * t)
  | _ => 0

/-- Per-kind work bounds for one `updateGeo` call: at most one smoothing
band, at most one uniformity step, at most one classification and at most
one relaxation pass. -/
def callCounts (r : StepResult) : Prop :=
  r.log.countP isGaussItem ≤ 1 ∧ r.log.countP isUnifItem ≤ 1 ∧
    r.log.countP isClassifyItem ≤ 1 ∧ r.log.countP isRelaxItem ≤ 1

set_option maxRecDepth 10000
set_option maxHeartbeats 4000000

/-- C6 counterexample: `create` does not fail on out-of-range dimensions.
Both at 8192 (claimed to be rejected as too large) and at 0 (claimed to be
rejected as too small) it returns the success status 1; the ≥ 8192 / ≤ 1
validation happens in `skullRemove`, before `create` is ever called. -/
theorem create_no_dim_check :
    (avCreate 8192 8192 8192 []).status = 1 ∧ (avCreate 0 0 0 []).status = 1 :=
  ⟨rfl, rfl⟩

/-- C6 amended: `create` itself performs no dimension validation; for every
dimension triple it returns success 1, records the state, dimensions and
source, allocates SmoothedVolume and UniformityVolume zero-initialized with
exactly xDim·yDim·zDim elements, and leaves the vertex scratch buffer
unallocated. -/
theorem create_allocates (xDim yDim zDim : ℤ) (src : List ℚ) :
    (avCreate xDim yDim zDim src).status = 1 ∧
    (avCreate xDim yDim zDim src).m_state = 0 ∧
    (avCreate xDim yDim zDim src).m_xDim = xDim ∧
    (avCreate xDim yDim zDim src).m_yDim = yDim ∧
    (avCreate xDim yDim zDim src).m_zDim = zDim ∧
    (avCreate xDim yDim zDim src).m_pixelsSrc = src ∧
    (avCreate xDim yDim zDim src).m_imageGauss.length = (xDim * yDim * zDim).toNat ∧
    (∀ q ∈ (avCreate xDim yDim zDim src).m_imageGauss, q = 0) ∧
    (avCreate xDim yDim zDim src).m_imageUniformity.length = (xDim * yDim * zDim).toNat ∧
    (∀ q ∈ (avCreate xDim yDim zDim src).m_imageUniformity, q = 0) ∧
    (avCreate xDim yDim zDim src).m_verticesNew = none := by
  refine ⟨rfl, rfl, rfl, rfl, rfl, rfl, ?_, ?_, ?_, ?_, rfl⟩ <;>
    simp [avCreate]

/-- Witness for C6 amended at concrete dimensions 2×3×4. -/
theorem create_allocates_w :
    (avCreate 2 3 4 []).m_imageGauss.length = ((2 * 3 * 4 : ℤ)).toNat :=
  (create_allocates 2 3 4 []).2.2.2.2.2.2.1

/-- C2: for any dimension triple with an axis ≤ 1 or ≥ 8192, `skullRemove`
returns a negative status and leaves the destination volume untouched (the
source function never writes `volTexDst` at all; on the bad-dimension paths
it returns −1 before any other work). -/
theorem skullRemove_bad_dims (xDim yDim zDim : ℤ) (src dst : List ℚ)
    (okT errG : ℤ) (gv : List ℚ) (okN : ℤ) (rA rB : List ℚ → List ℚ)
    (h : xDim ≤ 1 ∨ yDim ≤ 1 ∨ zDim ≤ 1 ∨ 8192 ≤ xDim ∨ 8192 ≤ yDim ∨ 8192 ≤ zDim) :
    (skullRemove xDim yDim zDim src dst okT errG gv okN rA rB).1 < 0 ∧
      (skullRemove xDim yDim zDim src dst okT errG gv okN rA rB).2 = dst := by
  unfold skullRemove
  by_cases h1 : 8192 ≤ xDim ∨ 8192 ≤ yDim ∨ 8192 ≤ zDim
  · rw [if_pos h1]
    exact ⟨by norm_num, rfl⟩
  · rw [if_neg h1, if_pos (show xDim ≤ 1 ∨ yDim ≤ 1 ∨ zDim ≤ 1 by omega)]
    exact ⟨by norm_num, rfl⟩

/-- Witness for C2 at dimensions (8192, 2, 2) and at (2, 1, 2). -/
theorem skullRemove_bad_dims_w :
    ((skullRemove 8192 2 2 [] [5] 1 1 [] 1 id id).1 < 0 ∧
      (skullRemove 8192 2 2 [] [5] 1 1 [] 1 id id).2 = [5]) ∧
    ((skullRemove 2 1 2 [] [7] 1 1 [] 1 id id).1 < 0 ∧
      (skullRemove 2 1 2 [] [7] 1 1 [] 1 id id).2 = [7]) :=
  ⟨skullRemove_bad_dims 8192 2 2 [] [5] 1 1 [] 1 id id (by omega),
    skullRemove_bad_dims 2 1 2 [] [7] 1 1 [] 1 id id (by omega)⟩

/-- The claimed vertex rescale formula `v ↦ dim/2 + (dim/2)·v`, stated from
the specification text for comparison with the source computation
`scaleComp`, which uses `(dim − 1)·0.5`. -/
def claimScaleComp (dim v : ℚ) : ℚ := dim / 2 + dim / 2 * v

/-- C7 counterexample: with dimensions 3×3×3 and the seed vertex (1,1,1)
(fourth component 9), the source maps each coordinate to
(3−1)/2 + (3−1)/2·1 = 2, while the claimed formula dim/2 + (dim/2)·v gives
3/2 + 3/2 = 3. -/
theorem scaleVertices_not_claim_formula :
    scaleVertices 3 3 3 [1, 1, 1, 9] = [2, 2, 2, 9] ∧ claimScaleComp 3 1 = 3 := by
  constructor
  · with_unfolding_all rfl
  · with_unfolding_all rfl

/-- C7 amended: the rescale loop maps component `c` of every vertex by
`v ↦ (dim−1)/2 + ((dim−1)/2)·v` for the matching axis dimension
(components 0..2) and leaves component 3 unchanged, for every vertex array
made of complete 4-component vertices. -/
theorem scaleVertices_get (xd yd zd : ℚ) :
    ∀ l : List ℚ, l.length % 4 = 0 → ∀ i : ℕ,
      (scaleVertices xd yd zd l)[i]? =
        (l[i]?).map (fun v =>
          if i % 4 = 0 then scaleComp xd v
          else if i % 4 = 1 then scaleComp yd v
          else if i % 4 = 2 then scaleComp zd v else v)
  | [], _, i => by simp [scaleVertices]
  | [x], h, i => by simp at h
  | [x, y], h, i => by simp at h
  | [x, y, z], h, i => by simp at h
  | x :: y :: z :: w :: rest, h, i => by
    have h4 : rest.length % 4 = 0 := by
      simp only [List.length_cons] at h; omega
    have ih := scaleVertices_get xd yd zd rest h4
    match i with
    | 0 => simp [scaleVertices]
    | 1 => simp [scaleVertices]
    | 2 => simp [scaleVertices]
    | 3 => simp [scaleVertices]
    | (n + 4) =>
      have hmod : (n + 4) % 4 = n % 4 := by omega
      simp only [scaleVertices, List.getElem?_cons_succ, hmod]
      exact ih n

/-- Witness for C7 amended: first component of a concrete vertex array. -/
theorem scaleVertices_get_w :
    (scaleVertices 3 4 5 [1, 1, 1, 9])[0]? =
      (([1, 1, 1, 9] : List ℚ)[0]?).map (fun v =>
        if 0 % 4 = 0 then scaleComp 3 v
        else if 0 % 4 = 1 then scaleComp 4 v
        else if 0 % 4 = 2 then scaleComp 5 v else v) :=
  scaleVertices_get 3 4 5 [1, 1, 1, 9] (by simp) 0

/-- C8 (code bug): the source computes the border-strip width as
`xDim * (NUM_20 / NUM_526)` where the constant named `NUM_526` holds 20.0,
so for xDim = 526 the computed strip width is the whole axis (526 columns)
instead of the claimed 20/526-fraction (20 columns), and the inward scan
range `[xMin, xDim/2)` is empty. -/
theorem borderStrip_eval :
    xMinBorder 526 = 526 ∧ xMinSpecClaim 526 = 20 ∧
      jsRange (xMinBorder 526) (526 / 2) = [] := by
  refine ⟨?_, ?_, ?_⟩ <;> with_unfolding_all rfl

/-- C3 (code bug): the boundary-band histogram pass on a 64×10×10 volume
whose smoothed image is constantly 1/2 attempts 640 sample increments
(`numPixHist` = 640) but the bins only sum to 320: the left-band loop
indexes the histogram with the raw non-integer intensity (its `Math.floor`
is missing), so all 320 left-band samples are silently dropped, while the
320 right-band samples are floored to 0 and counted. -/
theorem hist2_sum_mismatch :
    sumHist (histFromKeys (hist2Keys 64 10 10 (fun _ => 1/2))) = 320 ∧
      (hist2Keys 64 10 10 (fun _ => 1/2)).length = 640 := by
  constructor
  · with_unfolding_all rfl
  · with_unfolding_all rfl

/-- A valid histogram increment adds exactly one to the 256-bin sum. -/
theorem sumHist_histIncr (h : ℕ → ℕ) (v : ℚ)
    (hv : v.den = 1 ∧ 0 ≤ v.num ∧ v.num < 256) :
    sumHist (histIncr h v) = sumHist h + 1 := by
  unfold histIncr sumHist
  rw [if_pos hv]
  have hk : v.num.toNat ∈ Finset.range 256 := by
    rcases hv with ⟨h1, h2, h3⟩
    exact Finset.mem_range.mpr (by omega)
  calc ∑ i ∈ Finset.range 256, (if i = v.num.toNat then h i + 1 else h i)
      = ∑ i ∈ Finset.range 256, (h i + if i = v.num.toNat then 1 else 0) := by
        refine Finset.sum_congr rfl (fun i _ => ?_)
        split <;> omega
    _ = (∑ i ∈ Finset.range 256, h i)
          + ∑ i ∈ Finset.range 256, (if i = v.num.toNat then 1 else 0) :=
        Finset.sum_add_distrib
    _ = (∑ i ∈ Finset.range 256, h i) + 1 := by
        rw [Finset.sum_ite_eq' (Finset.range 256) v.num.toNat (fun _ => 1), if_pos hk]

/-- The full-volume histogram pass satisfies the invariant: when the
smoothed image is nonnegative (as it is for a nonnegative source volume),
the 256 bins sum to exactly the number of voxels sampled. The boundary-band
pass violates the same invariant (see `hist2_sum_mismatch`). -/
theorem histogramFullPass_sum (img : ℕ → ℚ) :
    ∀ n : ℕ, (∀ i, i < n → 0 ≤ img i) → sumHist (histogramFullPass n img) = n := by
  intro n
  induction n with
  | zero =>
    intro _
    unfold histogramFullPass
    simp [sumHist]
  | succ n ih =>
    intro hpos
    unfold histogramFullPass at *
    rw [List.range_succ, List.foldl_append, List.foldl_cons, List.foldl_nil]
    have hfloor : (0 : ℤ) ≤ ⌊img n⌋ := Int.floor_nonneg.mpr (hpos n (by omega))
    rw [sumHist_histIncr _ _ ?_, ih (fun i hi => hpos i (by omega))]
    refine ⟨Rat.den_intCast _, ?_, ?_⟩
    · rw [Rat.num_intCast]
      exact le_min hfloor (by norm_num)
    · rw [Rat.num_intCast]
      have : min ⌊img n⌋ 255 ≤ 255 := min_le_right _ _
      omega

/-- C9: once the engine state is `Finished` (4), `updateGeo` returns status
1, performs no work, leaves the state and all counters unchanged and does
not touch the mesh vertices; iterating any number of further calls keeps
engine and mesh fixed. -/
theorem updateGeo_finished_noop (okNormals : ℤ) (relaxA relaxB : List ℚ → List ℚ)
    (st : EngState) (geo : List ℚ) (method : ℤ) (h : st.state = 4) :
    updateGeoM okNormals relaxA relaxB st geo method = ⟨st, geo, 1, []⟩ ∧
      ∀ n, iterUpd okNormals relaxA relaxB method n (st, geo) = (st, geo) := by
  have h1 : updateGeoM okNormals relaxA relaxB st geo method = ⟨st, geo, 1, []⟩ := by
    unfold updateGeoM
    rw [if_pos h]
  refine ⟨h1, ?_⟩
  intro n
  induction n with
  | zero => rfl
  | succ n ih =>
    show iterUpd okNormals relaxA relaxB method n _ = _
    rw [h1]
    exact ih

/-- Witness for C9 at a concrete finished engine state with 5 repeated
calls. -/
theorem updateGeo_finished_noop_w :
    updateGeoM 1 id id ⟨4, 18, 18, 7, 4, 4, 4, true⟩ [1, 2] 65535 =
        ⟨⟨4, 18, 18, 7, 4, 4, 4, true⟩, [1, 2], 1, []⟩ ∧
      iterUpd 1 id id 65535 5 (⟨4, 18, 18, 7, 4, 4, 4, true⟩, [1, 2]) =
        (⟨4, 18, 18, 7, 4, 4, 4, true⟩, [1, 2]) :=
  ⟨(updateGeo_finished_noop 1 id id ⟨4, 18, 18, 7, 4, 4, 4, true⟩ [1, 2] 65535 rfl).1,
    (updateGeo_finished_noop 1 id id ⟨4, 18, 18, 7, 4, 4, 4, true⟩ [1, 2] 65535 rfl).2 5⟩

/-- C1 counterexample: driving the engine from creation with the full
method mask `AV_METHOD_ALL`, the 35th call of the step function performs a
uniformity pass, the histogram classification, the vertex-scratch
allocation and a relaxation pass all in one call — the mapped owner states
`[2, 2, 3, 3]` show work of two different states (PrepareUniformity and
UpdateGeo) inside a single call, because the sequential state checks fall
through on the transition. -/
theorem updateGeo_two_states_in_one_call :
    logAt 34 = [.uniformityStep, .classifyHist, .allocVertices, .relaxFull] ∧
      (logAt 34).map stateOfWork = [2, 2, 3, 3] :=
  ⟨by decide, by decide⟩

/-- The relaxation dispatch emits at most one relaxation work item. -/
theorem relaxDispatch_log (relaxA relaxB : List ℚ → List ℚ) (method : ℤ) (geo : List ℚ) :
    (relaxDispatch relaxA relaxB method geo).2 = [] ∨
      (relaxDispatch relaxA relaxB method geo).2 = [.relaxNormals] ∨
      (relaxDispatch relaxA relaxB method geo).2 = [.relaxNormalsUniformity] ∨
      (relaxDispatch relaxA relaxB method geo).2 = [.relaxFull] := by
  unfold relaxDispatch
  split_ifs <;> simp

/-- C1 amended: every `updateGeo` call performs at most one smoothing band,
at most one uniformity step, at most one classification and at most one
relaxation pass; and a call whose work log mixes work of two different
states is exactly a call on which the engine state changed (the sequential
state checks fall through into the next state on transition calls, which is
where the original claim fails). -/
theorem updateGeo_work_per_call (okNormals : ℤ) (relaxA relaxB : List ℚ → List ℚ)
    (st : EngState) (geo : List ℚ) (method : ℤ) :
    callCounts (updateGeoM okNormals relaxA relaxB st geo method) ∧
      (oneStateLog (updateGeoM okNormals relaxA relaxB st geo method).log ∨
        (updateGeoM okNormals relaxA relaxB st geo method).eng.state ≠ st.state) := by
  by_cases h4 : st.state = 4
  · refine ⟨?_, Or.inl ?_⟩ <;>
      simp [updateGeoM, h4, callCounts, oneStateLog]
  by_cases h0 : st.state = 0
  · by_cases hok : okNormals = 1
    · have hcond : ¬ (st.state = 0 ∧ okNormals ≠ 1) := by simp [hok]
      refine ⟨?_, Or.inr ?_⟩ <;>
        simp [updateGeoM, h4, hcond, hok, blockStart, h0, blockGauss, blockUnif, blockGeo,
          callCounts, oneStateLog, isGaussItem, isUnifItem, isClassifyItem, isRelaxItem,
          stateOfWork]
    · have hcond : st.state = 0 ∧ okNormals ≠ 1 := ⟨h0, hok⟩
      refine ⟨?_, Or.inl ?_⟩ <;>
        simp [updateGeoM, h4, hcond, callCounts, oneStateLog]
  have hcond : ¬ (st.state = 0 ∧ okNormals ≠ 1) := fun hc => h0 hc.1
  by_cases h1 : st.state = 1
  · by_cases hg : 18 ≤ st.gaussStage + 1
    · refine ⟨?_, Or.inr ?_⟩ <;>
        simp [updateGeoM, h4, hcond, blockStart, h0, blockGauss, h1, hg, blockUnif, blockGeo,
          callCounts, oneStateLog, isGaussItem, isUnifItem, isClassifyItem, isRelaxItem,
          stateOfWork]
    · refine ⟨?_, Or.inl ?_⟩ <;>
        simp [updateGeoM, h4, hcond, blockStart, h0, blockGauss, h1, hg, blockUnif, blockGeo,
          callCounts, oneStateLog, isGaussItem, isUnifItem, isClassifyItem, isRelaxItem,
          stateOfWork]
  by_cases h2 : st.state = 2
  · by_cases hu : st.uniformityStage + 1 = 18
    · rcases relaxDispatch_log relaxA relaxB method geo with hd | hd | hd | hd <;>
        by_cases halloc : st.verticesNewAlloc <;>
        · refine ⟨?_, Or.inr ?_⟩ <;>
            simp [updateGeoM, h4, hcond, blockStart, h0, blockGauss, h1, blockUnif, h2, hu,
              blockGeo, hd, halloc, callCounts, oneStateLog, isGaussItem, isUnifItem,
              isClassifyItem, isRelaxItem, stateOfWork]
    · refine ⟨?_, Or.inl ?_⟩ <;>
        simp [updateGeoM, h4, hcond, blockStart, h0, blockGauss, h1, blockUnif, h2, hu,
          blockGeo, callCounts, oneStateLog, isGaussItem, isUnifItem, isClassifyItem,
          isRelaxItem, stateOfWork]
  by_cases h3 : st.state = 3
  · rcases relaxDispatch_log relaxA relaxB method geo with hd | hd | hd | hd <;>
      by_cases halloc : st.verticesNewAlloc <;>
      · refine ⟨?_, Or.inl ?_⟩ <;>
          simp [updateGeoM, h4, hcond, blockStart, h0, blockGauss, h1, blockUnif, h2,
            blockGeo, h3, hd, halloc, callCounts, oneStateLog, isGaussItem, isUnifItem,
            isClassifyItem, isRelaxItem, stateOfWork]
  · refine ⟨?_, Or.inl ?_⟩ <;>
      simp [updateGeoM, h4, hcond, blockStart, h0, blockGauss, h1, blockUnif, h2,
        blockGeo, h3, callCounts, oneStateLog]

/-- Witness for C1 amended: the per-call work bounds at the concrete
transition call of the driver trace. -/
theorem updateGeo_work_per_call_w :
    callCounts (updateGeoM 1 id id (iterSteps 34).1 (iterSteps 34).2 65535) :=
  (updateGeo_work_per_call 1 id id (iterSteps 34).1 (iterSteps 34).2 65535).1

/-- The clamped smoothstep parameter is always a finite value in [0, 1],
for every input including the degenerate zero-width range. -/
theorem smoothStepT_fin (minRange maxRange arg : ℚ) :
    ∃ t : ℚ, smoothStepT minRange maxRange arg = .fin t ∧ 0 ≤ t ∧ t ≤ 1 := by
  unfold smoothStepT jsDivNum
  by_cases hb : maxRange - minRange = 0
  · rcases lt_trichotomy 0 (arg - minRange) with hgt | heq | hlt
    · refine ⟨1, ?_, by norm_num, le_refl 1⟩
      simp [hb, hgt, jsGtC, jsLtC]
    · refine ⟨0, ?_, le_refl 0, by norm_num⟩
      simp [hb, ← heq, jsGtC, jsLtC]
    · refine ⟨0, ?_, le_refl 0, by norm_num⟩
      simp [hb, show ¬ (0 < arg - minRange) by linarith, show arg - minRange < 0 by linarith,
        jsGtC, jsLtC]
  · by_cases h0q : 0 < (arg - minRange) / (maxRange - minRange)
    · by_cases hq1 : (arg - minRange) / (maxRange - minRange) < 1
      · refine ⟨(arg - minRange) / (maxRange - minRange), ?_, le_of_lt h0q, le_of_lt hq1⟩
        simp [hb, jsGtC, jsLtC, h0q, hq1]
      · refine ⟨1, ?_, by norm_num, le_refl 1⟩
        simp [hb, jsGtC, jsLtC, h0q, hq1]
    · refine ⟨0, ?_, le_refl 0, by norm_num⟩
      simp [hb, jsGtC, jsLtC, h0q]

/-- C10: `smoothStep` is total and its result always lies in [0, 1]; in the
degenerate case maxRange = minRange, where the internal division is by
zero, the two clamps absorb the NaN / ±Infinity, forcing 0 for
arg ≤ minRange (NaN and −Infinity both fail the `t > 0` test) and 1 for
arg > minRange (+Infinity fails the `t < 1` test). -/
theorem smoothStep_range (minRange maxRange arg : ℚ) :
    0 ≤ smoothStepVal minRange maxRange arg ∧
      smoothStepVal minRange maxRange arg ≤ 1 ∧
      smoothStepVal minRange minRange arg = if minRange < arg then 1 else 0 := by
  obtain ⟨t, ht, h0, h1⟩ := smoothStepT_fin minRange maxRange arg
  refine ⟨?_, ?_, ?_⟩
  · simp only [smoothStepVal, ht]
    exact mul_nonneg (mul_self_nonneg t) (by linarith)
  · simp only [smoothStepVal, ht]
    nlinarith [mul_nonneg (mul_nonneg (sub_nonneg.mpr h1) (sub_nonneg.mpr h1))
      (show (0:ℚ) ≤ 1 + 2 * t by linarith)]
  · by_cases hlt : minRange < arg
    · have hfin : smoothStepT minRange minRange arg = .fin 1 := by
        unfold smoothStepT jsDivNum
        simp [sub_self, show 0 < arg - minRange by linarith, jsGtC, jsLtC]
      simp only [smoothStepVal, hfin, if_pos hlt]
      norm_num
    · have ha : ¬ 0 < arg - minRange := by linarith
      have hfin : smoothStepT minRange minRange arg = .fin 0 := by
        unfold smoothStepT jsDivNum
        by_cases heq : arg - minRange < 0
        · simp [sub_self, ha, heq, jsGtC, jsLtC]
        · simp [sub_self, ha, heq, jsGtC, jsLtC]
      simp only [smoothStepVal, hfin, if_neg hlt]
      norm_num

/-- Witness for C10 in the degenerate range case: `smoothStep(1, 1, 5) = 1`
and `smoothStep(1, 1, 0) = 0`. -/
theorem smoothStep_range_w :
    smoothStepVal 1 1 5 = 1 ∧ smoothStepVal 1 1 0 = 0 := by
  constructor
  · have h := (smoothStep_range 1 1 5).2.2
    rw [h]
    norm_num
  · have h := (smoothStep_range 1 1 0).2.2
    rw [h]
    norm_num

/-- C4: the color coefficients `1 − 1/(1 + |i − indexMinColor| ^ 0.3)` are
in [0, 1), vanish at `indexMinColor`, and are monotone non-decreasing in
the distance `|i − indexMinColor|`, for every value of `indexMinColor`. -/
theorem colorKoef_props (imin : ℕ) :
    (∀ i, 0 ≤ colorKoef imin i ∧ colorKoef imin i < 1) ∧
      colorKoef imin imin = 0 ∧
      ∀ i j : ℕ, ((i : ℤ) - imin).natAbs ≤ ((j : ℤ) - imin).natAbs →
        colorKoef imin i ≤ colorKoef imin j := by
  have hpow : ∀ n : ℕ, (0:ℝ) ≤ (n : ℝ) ^ ((0.3 : ℝ)) := fun n =>
    Real.rpow_nonneg (Nat.cast_nonneg n) _
  have hpos : ∀ n : ℕ, (0:ℝ) < 1 + (n : ℝ) ^ ((0.3 : ℝ)) := fun n => by
    have := hpow n; linarith
  refine ⟨?_, ?_, ?_⟩
  · intro i
    unfold colorKoef
    constructor
    · have hle : 1 / (1 + ((((i : ℤ) - imin).natAbs : ℕ) : ℝ) ^ ((0.3:ℝ))) ≤ 1 := by
        rw [div_le_one (hpos _)]
        linarith [hpow ((i : ℤ) - imin).natAbs]
      linarith
    · have hgt : 0 < 1 / (1 + ((((i : ℤ) - imin).natAbs : ℕ) : ℝ) ^ ((0.3:ℝ))) :=
        div_pos one_pos (hpos _)
      linarith
  · unfold colorKoef
    have habs : ((imin : ℤ) - imin).natAbs = 0 := by omega
    rw [habs]
    norm_num [Real.zero_rpow]
  · intro i j hij
    unfold colorKoef
    have hmono : ((((i : ℤ) - imin).natAbs : ℕ) : ℝ) ^ ((0.3:ℝ)) ≤
        ((((j : ℤ) - imin).natAbs : ℕ) : ℝ) ^ ((0.3:ℝ)) :=
      Real.rpow_le_rpow (Nat.cast_nonneg _) (by exact_mod_cast hij) (by norm_num)
    have hdiv : 1 / (1 + ((((j : ℤ) - imin).natAbs : ℕ) : ℝ) ^ ((0.3:ℝ))) ≤
        1 / (1 + ((((i : ℤ) - imin).natAbs : ℕ) : ℝ) ^ ((0.3:ℝ))) :=
      one_div_le_one_div_of_le (hpos _) (by linarith)
    linarith

/-- Witness for C4: the coefficient at distance 2 from `indexMinColor = 3`
is at most the one at distance 6. -/
theorem colorKoef_props_w : colorKoef 3 5 ≤ colorKoef 3 9 :=
  (colorKoef_props 3).2.2 5 9 (by decide)

/-- Unfolding of `applyPartGaussSmooth` with `zStart = 0`: the kernel is
rebuilt and the smoothed image starts from a fresh copy of the source. -/
theorem applyPartGaussSmooth_zero (xDim yDim zDim : ℕ) (src : ℕ → ℝ)
    (zEnd rad : ℕ) (sigma : ℝ) (st : GaussSt) :
    applyPartGaussSmooth xDim yDim zDim src 0 zEnd rad sigma st =
      { gaussMatrix := buildKernel rad sigma
        imageGauss := fun p =>
          if inWriteBand xDim yDim rad (max 0 rad) (min zEnd (zDim - rad)) p then
            convAt xDim yDim rad src (buildKernel rad sigma) (p % xDim) (p / xDim % yDim)
              (p / (xDim * yDim))
          else src p } := rfl

/-- Unfolding of `applyPartGaussSmooth` with `zStart ≠ 0`: the cached
kernel and the incoming smoothed image are reused. -/
theorem applyPartGaussSmooth_pos (xDim yDim zDim : ℕ) (src : ℕ → ℝ)
    (zStart zEnd rad : ℕ) (sigma : ℝ) (st : GaussSt) (h : ¬ zStart = 0) :
    applyPartGaussSmooth xDim yDim zDim src zStart zEnd rad sigma st =
      { gaussMatrix := st.gaussMatrix
        imageGauss := fun p =>
          if inWriteBand xDim yDim rad (max zStart rad) (min zEnd (zDim - rad)) p then
            convAt xDim yDim rad src st.gaussMatrix (p % xDim) (p / xDim % yDim)
              (p / (xDim * yDim))
          else st.imageGauss p } := by
  unfold applyPartGaussSmooth
  rw [if_neg h]

/-- Splitting the clamped full Z-range at `k ≤ zDim`: a voxel is rewritten
by the single full-range call exactly when it is rewritten by one of the
two band calls. -/
theorem inWriteBand_split (xDim yDim zDim rad k p : ℕ) (hkz : k ≤ zDim) :
    inWriteBand xDim yDim rad (max 0 rad) (min zDim (zDim - rad)) p ↔
      (inWriteBand xDim yDim rad (max 0 rad) (min k (zDim - rad)) p ∨
        inWriteBand xDim yDim rad (max k rad) (min zDim (zDim - rad)) p) := by
  unfold inWriteBand
  generalize p % xDim = a
  generalize p / xDim % yDim = b
  generalize p / (xDim * yDim) = c
  omega

/-- C5: Gaussian band smoothing is partition invariant — smoothing the
bands `[0, k)` then `[k, zDim)` produces exactly the same smoothed volume
as a single call over `[0, zDim)`, for every source image, radius, sigma
and split point `0 < k < zDim` (the border shell outside
`[rad, dim − rad)` per axis keeps the raw source copy in both cases). -/
theorem applyPartGaussSmooth_partition (xDim yDim zDim : ℕ) (src : ℕ → ℝ)
    (rad k : ℕ) (sigma : ℝ) (st : GaussSt) (hk : 0 < k) (hkz : k < zDim) :
    (applyPartGaussSmooth xDim yDim zDim src k zDim rad sigma
        (applyPartGaussSmooth xDim yDim zDim src 0 k rad sigma st)).imageGauss =
      (applyPartGaussSmooth xDim yDim zDim src 0 zDim rad sigma st).imageGauss := by
  rw [applyPartGaussSmooth_pos xDim yDim zDim src k zDim rad sigma _ (by omega),
    applyPartGaussSmooth_zero xDim yDim zDim src k rad sigma st,
    applyPartGaussSmooth_zero xDim yDim zDim src zDim rad sigma st]
  funext p
  dsimp only
  by_cases h2 : inWriteBand xDim yDim rad (max k rad) (min zDim (zDim - rad)) p
  · rw [if_pos h2,
      if_pos ((inWriteBand_split xDim yDim zDim rad k p (le_of_lt hkz)).mpr (Or.inr h2))]
  · rw [if_neg h2]
    by_cases h1 : inWriteBand xDim yDim rad (max 0 rad) (min k (zDim - rad)) p
    · rw [if_pos h1,
        if_pos ((inWriteBand_split xDim yDim zDim rad k p (le_of_lt hkz)).mpr (Or.inl h1))]
    · rw [if_neg h1,
        if_neg (fun hC =>
          ((inWriteBand_split xDim yDim zDim rad k p (le_of_lt hkz)).mp hC).elim h1 h2)]

/-- Witness for C5 at a 4×4×4 volume, radius 1, sigma 1 and split point 2. -/
theorem applyPartGaussSmooth_partition_w :
    (applyPartGaussSmooth 4 4 4 srcZero 2 4 1 1
        (applyPartGaussSmooth 4 4 4 srcZero 0 2 1 1 gaussInit)).imageGauss =
      (applyPartGaussSmooth 4 4 4 srcZero 0 4 1 1 gaussInit).imageGauss :=
  applyPartGaussSmooth_partition 4 4 4 srcZero 1 2 1 gaussInit (by norm_num) (by norm_num)
